import Mathlib

/-!
# Scheduling logic of the APR.IO auto check-in bot

A shallow embedding of `src/lim.js` (`dailyCheckIn`, `startBotLoop`) and of
`src/index.js` (the start-up guard, `dailyCheckIn`, `runAutoCheckIn`).

The awaited network and wallet calls are external: an `AttemptEnv` records, for
one attempt, what each of them does (returns a value or throws) and what the
clock reads.  Console output is not modelled.

Numbers.  Every number the scheduler of lim.js handles is either `NaN` or an
integer: `Date.now()` is an integer, a `Date` holds an integer time value of
magnitude at most 8.64e15 or `NaN`.  Sums of such a value and 86400000 are
below 2^53, where double arithmetic is exact; a difference `nextRunTime - now`
is exact as well when it is positive, and a negative one is only compared with
zero.  Integers therefore stand for the finite numbers.

Thrown values are taken to be `Error` objects whose `message`, when present,
is a string.
-/

namespace CheckinBot

/-! ## JavaScript values -/

/-- A JavaScript number: `NaN` or an integer value. -/
inductive JsNum where
  | nan
  | fin (n : Int)
deriving DecidableEq, Repr

namespace JsNum

/-- The operator `a + b`. -/
def add : JsNum → JsNum → JsNum
  | fin a, fin b => fin (a + b)
  | _, _ => nan

/-- The operator `a - b`. -/
def sub : JsNum → JsNum → JsNum
  | fin a, fin b => fin (a - b)
  | _, _ => nan

/-- The comparison `a <= b`; false as soon as one side is `NaN`. -/
def le : JsNum → JsNum → Bool
  | fin a, fin b => decide (a ≤ b)
  | _, _ => false

/-- The comparison `a > b`; false as soon as one side is `NaN`. -/
def gt : JsNum → JsNum → Bool
  | fin a, fin b => decide (b < a)
  | _, _ => false

/-- The function `Math.min(a, b)`. -/
def min : JsNum → JsNum → JsNum
  | fin a, fin b => fin (Min.min a b)
  | _, _ => nan

end JsNum

/-- The largest magnitude of a `Date` time value, 8.64e15 ms. -/
def MAX_TIME_VALUE : Int := 8640000000000000

/-- The time value of `new Date(x)`, i.e. `new Date(x).getTime()`: `NaN` for `NaN`
and for a number outside the range of dates. -/
def newDate : JsNum → JsNum
  | .nan => .nan
  | .fin n => if -MAX_TIME_VALUE ≤ n ∧ n ≤ MAX_TIME_VALUE then .fin n else .nan

/-- A value found in a server response, as far as `if (v)` and `Number(v)` tell
values apart.  Fractional numbers are left out. -/
inductive JsVal where
  | undefined
  | null
  | bool (b : Bool)
  | number (n : JsNum)
  | numericString (n : Int)
  | emptyString
  | otherString
  | object
deriving DecidableEq, Repr

namespace JsVal

/-- The truthiness of a value, as tested by `if (v)`. -/
def truthy : JsVal → Bool
  | undefined => false
  | null => false
  | bool b => b
  | number .nan => false
  | number (.fin n) => decide (n ≠ 0)
  | numericString _ => true
  | emptyString => false
  | otherString => true
  | object => true

/-- The conversion `Number(v)`. -/
def toNumber : JsVal → JsNum
  | undefined => .nan
  | null => .fin 0
  | bool b => .fin (if b then 1 else 0)
  | number n => n
  | numericString n => .fin n
  | emptyString => .fin 0
  | otherString => .nan
  | object => .nan

end JsVal

/-- A thrown `Error`; `message` is `none` when the property is undefined. -/
structure JsError where
  message : Option String
deriving DecidableEq, Repr

/-- What an awaited external call does: it resolves to a value or it throws. -/
inductive Call (α : Type) where
  | ok (value : α)
  | throws (err : JsError)
deriving DecidableEq, Repr

/-- The `TypeError` raised by a property read on `null` or `undefined`. -/
def typeError : JsError :=
  { message := some "Cannot read properties of undefined" }

/-! ## One attempt: the external calls -/

/-- The response of `login`; `hasUser` tells whether `loginResponse.user` is an object. -/
structure LoginResponse where
  hasUser : Bool
deriving DecidableEq, Repr

/-- The response of `getWalletStatus`. -/
structure WalletStatus where
  lastCheckinTime : JsVal
deriving DecidableEq, Repr

/-- The response of the check-in API. -/
structure CheckinResult where
  lastCheckinTime : JsVal
deriving DecidableEq, Repr

/-- What the outside world does during one run of `dailyCheckIn`.  A response of
`none` stands for `null` or `undefined`. -/
structure AttemptEnv where
  /-- The reading of `Date.now()` at the start of the attempt. -/
  dateNow : Int
  getNonce : Call (Option Unit)
  signMessage : Call Unit
  login : Call (Option LoginResponse)
  getWalletStatus : Call (Option WalletStatus)
  /-- The call of `checkinContract.checkIn()`, provider and contract set-up included. -/
  contractCheckIn : Call Unit
  /-- The call of `tx.wait()`. -/
  txWait : Call Unit
  checkIn : Call (Option CheckinResult)
  updatePoints : Call Unit
  collectWalletData : Call (Option Unit)
  /-- The second call of `getWalletStatus`, made after a failure in the API section. -/
  getWalletStatusAfterFail : Call (Option WalletStatus)
deriving DecidableEq, Repr

/-- The value returned by `dailyCheckIn`. -/
structure AttemptResult where
  nextRunTime : JsNum
  runAgain : Bool
deriving DecidableEq, Repr

/-- The method `s.toLowerCase()`, on the letters A to Z. -/
def toLowerCase (s : String) : List Char :=
  s.data.map Char.toLower

/-- The method `s.includes(pat)`. -/
def includes (s pat : List Char) : Bool :=
  s.tails.any (fun t => pat.isPrefixOf t)

/-- The authentication phase of `dailyCheckIn` (lim.js lines 101 to 117, index.js
lines 108 to 123): nonce, sign-in message, signature, login, first wallet status. -/
def authenticate (env : AttemptEnv) : Except JsError Unit :=
  match env.getNonce with
  | .throws e => .error e
  | .ok none => .error typeError
  | .ok (some _) =>
    match env.signMessage with
    | .throws e => .error e
    | .ok _ =>
      match env.login with
      | .throws e => .error e
      | .ok none => .error typeError
      | .ok (some loginResponse) =>
        if !loginResponse.hasUser then .error typeError
        else
          match env.getWalletStatus with
          | .throws e => .error e
          | .ok none => .error typeError
          | .ok (some _) => .ok ()

/-- The body of the smart-contract `try` block (lim.js lines 123 to 134, index.js
lines 135 to 145). -/
def contractTry (env : AttemptEnv) : Except JsError Unit :=
  match env.contractCheckIn with
  | .throws e => .error e
  | .ok _ =>
    match env.txWait with
    | .throws e => .error e
    | .ok _ => .ok ()

/-- The test of lim.js line 138 and index.js line 148: the message is non-empty
and contains `already` or `revert` once lower-cased. -/
def isAlreadyOrRevert (err : JsError) : Bool :=
  match err.message with
  | none => false
  | some m =>
    !m.data.isEmpty &&
      (includes (toLowerCase m) "already".data || includes (toLowerCase m) "revert".data)

/-- Lines 160 to 162 and 197 to 199 of lim.js: the next run time derived from a
reported last check-in time. -/
def nextFromLastCheckin (lastCheckinTime : JsVal) : JsNum :=
  let lastCheckin := newDate lastCheckinTime.toNumber
  let nextCheckin := newDate (lastCheckin.add (.fin (24 * 60 * 60 * 1000)))
  nextCheckin

/-- The body of the API `try` block of lim.js (lines 150 to 188).  It returns the
value of `nextRunTime` when the block is left, and the error that left it, if any. -/
def apiTry (env : AttemptEnv) (nextRunTime : JsNum) : JsNum × Except JsError Unit :=
  match env.checkIn with
  | .throws e => (nextRunTime, .error e)
  | .ok none => (nextRunTime, .error typeError)
  | .ok (some checkinResult) =>
    let nextRunTime :=
      if checkinResult.lastCheckinTime.truthy then
        nextFromLastCheckin checkinResult.lastCheckinTime
      else nextRunTime
    match env.updatePoints with
    | .throws e => (nextRunTime, .error e)
    | .ok _ =>
      match env.collectWalletData with
      | .throws e => (nextRunTime, .error e)
      | .ok none => (nextRunTime, .error typeError)
      | .ok (some _) => (nextRunTime, .ok ())

/-- The `catch` block of the API section of lim.js (lines 190 to 205). -/
def apiCatch (env : AttemptEnv) (nextRunTime : JsNum) : JsNum :=
  match env.getWalletStatusAfterFail with
  | .throws _ => nextRunTime
  | .ok none => nextRunTime
  | .ok (some statusAfterFail) =>
    if statusAfterFail.lastCheckinTime.truthy then
      nextFromLastCheckin statusAfterFail.lastCheckinTime
    else nextRunTime

/-- The API section of lim.js (lines 147 to 205): the value of `nextRunTime` after it. -/
def apiSection (env : AttemptEnv) (nextRunTime : JsNum) : JsNum :=
  match apiTry env nextRunTime with
  | (nextRunTime, .ok _) => nextRunTime
  | (nextRunTime, .error _) => apiCatch env nextRunTime

namespace Lim

/-- The function `dailyCheckIn` of lim.js. -/
def dailyCheckIn (env : AttemptEnv) : AttemptResult :=
  let nextRunTime := JsNum.fin (env.dateNow + 24 * 60 * 60 * 1000)
  match authenticate env with
  | .error _ => { nextRunTime := nextRunTime, runAgain := false }
  | .ok _ =>
    match contractTry env with
    | .error err =>
      if isAlreadyOrRevert err then
        { nextRunTime := apiSection env nextRunTime, runAgain := true }
      else { nextRunTime := nextRunTime, runAgain := true }
    | .ok _ => { nextRunTime := apiSection env nextRunTime, runAgain := true }

/-! ## lim.js: the loop -/

/-- Lines 233 to 240 of `startBotLoop`: the wait chosen after a non-fatal attempt. -/
def waitTime (result : AttemptResult) (now : Int) : JsNum :=
  let waitTime := result.nextRunTime.sub (.fin now)
  if waitTime.le (.fin 0) then .fin 60000 else waitTime

/-- The countdown loop (lines 249 to 263) with a bound on its iterations: the
list of the durations passed to `sleep`. -/
def countdownAux : Nat → JsNum → List Int
  | _, .nan => []
  | 0, .fin _ => []
  | fuel + 1, .fin remainingTime =>
    if remainingTime > 0 then
      let timeToWait := min remainingTime 5000
      timeToWait :: countdownAux fuel (.fin (remainingTime - timeToWait))
    else []

/-- The number of iterations that is always enough for the countdown loop. -/
def countdownFuel : JsNum → Nat
  | .nan => 0
  | .fin n => n.toNat

/-- The countdown loop (lines 249 to 263): the durations passed to `sleep`. -/
def countdown (waitTime : JsNum) : List Int :=
  countdownAux (countdownFuel waitTime) waitTime

/-- The countdown loop (lines 249 to 263) allowed at most `fuel` iterations:
`none` when the loop is still running after them, otherwise the durations
passed to `sleep` until the loop left by its condition. -/
def countdownRun : Nat → JsNum → Option (List Int)
  | _, .nan => some []
  | 0, .fin remainingTime => if remainingTime > 0 then none else some []
  | fuel + 1, .fin remainingTime =>
    if remainingTime > 0 then
      let timeToWait := min remainingTime 5000
      (countdownRun fuel (.fin (remainingTime - timeToWait))).map (timeToWait :: ·)
    else some []

/-- What `startBotLoop` does, as seen from outside. -/
inductive Event where
  | attempt
  | sleep (ms : Int)
  | stopped
deriving DecidableEq, Repr

/-- The function `startBotLoop` of lim.js, run against a finite script: one
environment and one reading of `Date.now()` (line 233) per iteration.  The
trace ends when the loop is left or the script is used up. -/
def startBotLoop : List (AttemptEnv × Int) → List Event
  | [] => []
  | (env, now) :: rest =>
    let result := dailyCheckIn env
    if !result.runAgain then [.attempt, .stopped]
    else
      .attempt :: ((countdown (waitTime result now)).map .sleep ++ startBotLoop rest)

/-- The total time slept in a trace. -/
def totalSleep : List Event → Int
  | [] => 0
  | .sleep ms :: rest => ms + totalSleep rest
  | _ :: rest => totalSleep rest

end Lim

/-! ## index.js -/

namespace Index

/-- The constant `ONE_DAY_MS`. -/
def ONE_DAY_MS : Int := 24 * 60 * 60 * 1000

/-- The two variables read from `process.env`; `none` when a variable is unset. -/
structure ProcessEnv where
  PRIVATE_KEY : Option String
  MONAD_RPC_URL : Option String
deriving DecidableEq, Repr

/-- The operator `!v` on a value of `process.env`: true for `undefined` and for
the empty string. -/
def jsNot : Option String → Bool
  | none => true
  | some s => decide (s = "")

/-- The variable `PRIVATE_KEY` or the variable `MONAD_RPC_URL` is absent or empty. -/
def ConfigMissing (penv : ProcessEnv) : Prop :=
  penv.PRIVATE_KEY = none ∨ penv.PRIVATE_KEY = some "" ∨
    penv.MONAD_RPC_URL = none ∨ penv.MONAD_RPC_URL = some ""

/-- What the process of index.js does, as seen from outside. -/
inductive Event where
  /-- A call of `process.exit(code)`. -/
  | exit (code : Nat)
  /-- The end of the process on an exception nothing catches. -/
  | uncaughtException
  /-- The wallet is constructed. -/
  | newWallet
  | attempt
  | setTimeout (delay : JsNum)
deriving DecidableEq, Repr

/-- The function `dailyCheckIn` of index.js: the value of the global
`lastCheckinTimeMs` after the call, given its value before. -/
def dailyCheckIn (env : AttemptEnv) (lastCheckinTimeMs : JsNum) : JsNum :=
  match authenticate env with
  | .error _ => lastCheckinTimeMs
  | .ok _ =>
    match contractTry env with
    | .error _ => lastCheckinTimeMs
    | .ok _ =>
      match env.checkIn with
      | .throws _ => lastCheckinTimeMs
      | .ok none => lastCheckinTimeMs
      | .ok (some checkinResult) =>
        if checkinResult.lastCheckinTime.truthy then
          checkinResult.lastCheckinTime.toNumber
        else lastCheckinTimeMs

/-- The function `runAutoCheckIn` of index.js, run against a finite script: one
environment and one reading of `Date.now()` (line 218) per call. -/
def runAutoCheckIn : List (AttemptEnv × Int) → JsNum → List Event
  | [], _ => []
  | (env, now) :: rest, lastCheckinTimeMs =>
    let lastCheckinTimeMs := dailyCheckIn env lastCheckinTimeMs
    let nextCheckinTime := lastCheckinTimeMs.add (.fin ONE_DAY_MS)
    let waitTime := nextCheckinTime.sub (.fin now)
    let delay := if waitTime.gt (.fin 0) then waitTime else .fin ONE_DAY_MS
    .attempt :: .setTimeout delay :: runAutoCheckIn rest lastCheckinTimeMs

/-- The top level of index.js (lines 53 to 63 and 243): the start-up check, the
wallet, the first call of `runAutoCheckIn`.  The constructor `ethers.Wallet` is
external: `newWallet` tells what it does on the key read from the environment,
return or throw (it throws on a malformed key).  Nothing catches at the top
level, so a throw ends the process. -/
def main (penv : ProcessEnv) (newWallet : Call Unit)
    (script : List (AttemptEnv × Int)) : List Event :=
  if jsNot penv.PRIVATE_KEY || jsNot penv.MONAD_RPC_URL then [.exit 1]
  else
    match newWallet with
    | .throws _ => [.uncaughtException]
    | .ok _ => .newWallet :: runAutoCheckIn script (.fin 0)

end Index

/-! ## Concrete environments -/

/-- An attempt in which every call succeeds and the check-in API reports the last
check-in time 1700000000000. -/
def envOk : AttemptEnv :=
  { dateNow := 1700000030000
    getNonce := .ok (some ())
    signMessage := .ok ()
    login := .ok (some { hasUser := true })
    getWalletStatus := .ok (some { lastCheckinTime := .undefined })
    contractCheckIn := .ok ()
    txWait := .ok ()
    checkIn := .ok (some { lastCheckinTime := .number (.fin 1700000000000) })
    updatePoints := .ok ()
    collectWalletData := .ok (some ())
    getWalletStatusAfterFail :=
      .ok (some { lastCheckinTime := .number (.fin 1700000000000) }) }

/-- An attempt in which every call succeeds and no response carries a last
check-in time. -/
def envNoTime : AttemptEnv :=
  { envOk with
    checkIn := .ok (some { lastCheckinTime := .undefined })
    getWalletStatusAfterFail := .ok (some { lastCheckinTime := .undefined }) }

/-- An attempt whose login is rejected. -/
def envLoginFails : AttemptEnv :=
  { envOk with login := .throws { message := some "Request failed with status code 401" } }

/-- An attempt whose contract call fails for a reason other than a revert. -/
def envContractError : AttemptEnv :=
  { envNoTime with contractCheckIn := .throws { message := some "could not detect network" } }

/-- An attempt in which the check-in API reports the last check-in time as a date
string such as `2023-11-14T22:13:20.000Z`, which `Number` turns into `NaN`. -/
def envDateString : AttemptEnv :=
  { envOk with checkIn := .ok (some { lastCheckinTime := .otherString }) }

/-- An attempt whose check-in API call is rejected and whose status re-query
reports the last check-in time 1700000000000. -/
def envApiRejected : AttemptEnv :=
  { envOk with checkIn := .throws { message := some "Request failed with status code 400" } }

/-- An attempt whose check-in API call succeeds, whose `updatePoints` call fails,
and whose status re-query still reports the check-in of the day before. -/
def envPointsFail : AttemptEnv :=
  { envOk with
    updatePoints := .throws { message := some "Request failed with status code 500" }
    getWalletStatusAfterFail :=
      .ok (some { lastCheckinTime := .number (.fin 1699913600000) }) }

/-- The attempt `envPointsFail` with a successful `updatePoints` call. -/
def envPointsOk : AttemptEnv :=
  { envPointsFail with updatePoints := .ok () }

/-- An attempt whose contract call reverts because the wallet has checked in
already, whose check-in API call is rejected, and whose status re-query reports
the last check-in time 1700000000000. -/
def envAlready : AttemptEnv :=
  { envApiRejected with
    contractCheckIn := .throws { message := some "execution reverted: Already checked in" } }

/-- The attempt `envAlready` with a successful contract call. -/
def envAlreadyContractOk : AttemptEnv :=
  { envAlready with contractCheckIn := .ok (), txWait := .ok () }

/-- A process environment without `MONAD_RPC_URL`. -/
def penvNoRpc : Index.ProcessEnv :=
  { PRIVATE_KEY := some "0x0123456789abcdef0123456789abcdef0123456789abcdef0123456789abcdef"
    MONAD_RPC_URL := none }

/-- A process environment whose `PRIVATE_KEY` is set but is no private key. -/
def penvBadKey : Index.ProcessEnv :=
  { PRIVATE_KEY := some "hello"
    MONAD_RPC_URL := some "https://testnet-rpc.monad.xyz" }

/-- What `new ethers.Wallet` does on a malformed key. -/
def newWalletThrows : Call Unit :=
  .throws { message := some "invalid private key" }

/-- A process environment with both variables set. -/
def penvOk : Index.ProcessEnv :=
  { PRIVATE_KEY := some "0x0123456789abcdef0123456789abcdef0123456789abcdef0123456789abcdef"
    MONAD_RPC_URL := some "https://testnet-rpc.monad.xyz" }

/-! ## Lemmas on the countdown loop -/

theorem countdownAux_sum (fuel : Nat) :
    ∀ r : Int, r.toNat ≤ fuel → (Lim.countdownAux fuel (.fin r)).sum = max r 0 := by
  induction fuel with
  | zero =>
    intro r hr
    have hr0 : r ≤ 0 := by omega
    simp [Lim.countdownAux, hr0]
  | succ fuel ih =>
    intro r hr
    by_cases hpos : r > 0
    · have hfuel : (r - min r 5000).toNat ≤ fuel := by omega
      simp only [Lim.countdownAux, hpos, if_true, List.sum_cons, ih _ hfuel]
      omega
    · simp only [Lim.countdownAux, hpos, if_false, List.sum_nil]
      omega

theorem countdown_sum (w : Int) : (Lim.countdown (.fin w)).sum = max w 0 :=
  countdownAux_sum _ w (le_refl _)

theorem countdown_nan : Lim.countdown .nan = [] := rfl

theorem totalSleep_append (xs ys : List Lim.Event) :
    Lim.totalSleep (xs ++ ys) = Lim.totalSleep xs + Lim.totalSleep ys := by
  induction xs with
  | nil => simp [Lim.totalSleep]
  | cons x xs ih =>
    cases x <;> simp [Lim.totalSleep, ih, add_assoc]

theorem totalSleep_map_sleep (l : List Int) :
    Lim.totalSleep (l.map Lim.Event.sleep) = l.sum := by
  induction l with
  | nil => rfl
  | cons x xs ih => simp [Lim.totalSleep, ih]

theorem waitTime_fin (result : AttemptResult) (n now : Int)
    (hnext : result.nextRunTime = .fin n) :
    Lim.waitTime result now = .fin (if n ≤ now then 60000 else n - now) := by
  by_cases h : n ≤ now
  · have h0 : n - now ≤ 0 := by omega
    simp [Lim.waitTime, hnext, JsNum.sub, JsNum.le, h, h0]
  · have h0 : ¬ n - now ≤ 0 := by omega
    simp [Lim.waitTime, hnext, JsNum.sub, JsNum.le, h, h0]

theorem waitTime_nan (result : AttemptResult) (now : Int)
    (hnext : result.nextRunTime = .nan) : Lim.waitTime result now = .nan := by
  simp [Lim.waitTime, hnext, JsNum.sub, JsNum.le]

theorem waitTime_sum (result : AttemptResult) (n now : Int)
    (hnext : result.nextRunTime = .fin n) :
    (Lim.countdown (Lim.waitTime result now)).sum = (if n ≤ now then 60000 else n - now) := by
  rw [waitTime_fin result n now hnext, countdown_sum]
  by_cases h : n ≤ now
  · simp [h]
  · simp only [h, if_false]
    omega

theorem startBotLoop_cons_nonfatal (env : AttemptEnv) (now : Int)
    (rest : List (AttemptEnv × Int))
    (hrun : (Lim.dailyCheckIn env).runAgain = true) :
    Lim.startBotLoop ((env, now) :: rest) =
      .attempt ::
        ((Lim.countdown (Lim.waitTime (Lim.dailyCheckIn env) now)).map .sleep ++
          Lim.startBotLoop rest) := by
  simp [Lim.startBotLoop, hrun]

theorem totalSleep_single_iteration (sleeps : List Int) :
    Lim.totalSleep (Lim.Event.attempt :: (sleeps.map Lim.Event.sleep ++ [])) = sleeps.sum := by
  simp [Lim.totalSleep, totalSleep_map_sleep]

theorem countdownAux_fuel_irrelevant (f1 : Nat) :
    ∀ (f2 : Nat) (r : Int), r ≤ 5000 * f1 → r ≤ 5000 * f2 →
      Lim.countdownAux f1 (.fin r) = Lim.countdownAux f2 (.fin r) := by
  induction f1 with
  | zero =>
    intro f2 r h1 _
    have hr : ¬ r > 0 := by omega
    cases f2 <;> simp [Lim.countdownAux, hr]
  | succ f1 ih =>
    intro f2 r h1 h2
    by_cases hr : r > 0
    · cases f2 with
      | zero => omega
      | succ f2 =>
        have hstep := ih f2 (r - min r 5000) (by omega) (by omega)
        simp only [Lim.countdownAux, hr, if_true, hstep]
    · cases f2 <;> simp [Lim.countdownAux, hr]

theorem countdown_eq_aux (fuel : Nat) (r : Int) (h : r ≤ 5000 * fuel) :
    Lim.countdown (.fin r) = Lim.countdownAux fuel (.fin r) := by
  have hfuel : r ≤ 5000 * (r.toNat : Int) := by omega
  exact countdownAux_fuel_irrelevant r.toNat fuel r hfuel h

theorem countdownRun_eq_aux (fuel : Nat) :
    ∀ r : Int, r ≤ 5000 * fuel →
      Lim.countdownRun fuel (.fin r) = some (Lim.countdownAux fuel (.fin r)) := by
  induction fuel with
  | zero =>
    intro r h
    have hr : ¬ r > 0 := by omega
    simp [Lim.countdownRun, Lim.countdownAux, hr]
  | succ fuel ih =>
    intro r h
    by_cases hr : r > 0
    · have hstep := ih (r - min r 5000) (by omega)
      simp only [Lim.countdownRun, Lim.countdownAux, hr, if_true, hstep, Option.map_some']
    · simp [Lim.countdownRun, Lim.countdownAux, hr]

theorem countdownAux_length (fuel : Nat) :
    ∀ r : Int, 0 ≤ r → r ≤ 5000 * fuel →
      ((Lim.countdownAux fuel (.fin r)).length : Int) = (r + 4999) / 5000 := by
  induction fuel with
  | zero =>
    intro r h0 h
    have hr : ¬ r > 0 := by omega
    simp only [Lim.countdownAux, List.length_nil]
    omega
  | succ fuel ih =>
    intro r h0 h
    by_cases hr : r > 0
    · have hstep := ih (r - min r 5000) (by omega) (by omega)
      simp only [Lim.countdownAux, hr, if_true, List.length_cons, Nat.cast_add, Nat.cast_one,
        hstep]
      omega
    · simp only [Lim.countdownAux, hr, if_false, List.length_nil]
      omega

theorem countdownAux_bounds (fuel : Nat) :
    ∀ r : Int, ∀ t ∈ Lim.countdownAux fuel (.fin r), 0 < t ∧ t ≤ 5000 := by
  induction fuel with
  | zero => intro r t ht; simp [Lim.countdownAux] at ht
  | succ fuel ih =>
    intro r t ht
    by_cases hr : r > 0
    · simp only [Lim.countdownAux, hr, if_true, List.mem_cons] at ht
      rcases ht with ht | ht
      · omega
      · exact ih _ t ht
    · simp [Lim.countdownAux, hr] at ht

theorem ceil_div_5000 (w : Int) : ⌈(w : ℚ) / 5000⌉ = (w + 4999) / 5000 := by
  rw [Int.ceil_eq_iff]
  have h1 : ((w + 4999) / 5000 - 1) * 5000 < w := by omega
  have h2 : w ≤ (w + 4999) / 5000 * 5000 := by omega
  have h1q : ((((w + 4999) / 5000 - 1) * 5000 : Int) : ℚ) < (w : ℚ) := by exact_mod_cast h1
  have h2q : (w : ℚ) ≤ (((w + 4999) / 5000 * 5000 : Int) : ℚ) := by exact_mod_cast h2
  push_cast at h1q h2q
  constructor
  · rw [lt_div_iff₀ (by norm_num)]
    linarith
  · rw [div_le_iff₀ (by norm_num)]
    linarith

/-! ## Lemmas on one attempt -/

theorem nextFromLastCheckin_eq (v : JsVal) (T : Int) (hnum : v.toNumber = .fin T)
    (hlo : -MAX_TIME_VALUE ≤ T) (hhi : T + 86400000 ≤ MAX_TIME_VALUE) :
    nextFromLastCheckin v = .fin (T + 86400000) := by
  have h1 : T ≤ MAX_TIME_VALUE := by omega
  have h2 : -MAX_TIME_VALUE ≤ T + 86400000 := by omega
  simp [nextFromLastCheckin, hnum, newDate, JsNum.add, hlo, h1, h2, hhi]

theorem runAgain_eq_true_iff (env : AttemptEnv) :
    (Lim.dailyCheckIn env).runAgain = true ↔ authenticate env = .ok () := by
  unfold Lim.dailyCheckIn
  cases ha : authenticate env with
  | error e => simp
  | ok u =>
    cases hc : contractTry env with
    | error err => by_cases hb : isAlreadyOrRevert err = true <;> simp [hb]
    | ok u2 => simp

theorem apiCatch_reported (env : AttemptEnv) (d : JsNum) (T : Int)
    (hlo : -MAX_TIME_VALUE ≤ T) (hhi : T + 86400000 ≤ MAX_TIME_VALUE)
    (hst : ∀ s, env.getWalletStatusAfterFail = .ok (some s) →
      s.lastCheckinTime.truthy = true ∧ s.lastCheckinTime.toNumber = .fin T)
    (hd : d = .fin (T + 86400000) ∨ ∃ s, env.getWalletStatusAfterFail = .ok (some s)) :
    apiCatch env d = .fin (T + 86400000) := by
  unfold apiCatch
  cases hs : env.getWalletStatusAfterFail with
  | throws e =>
    rcases hd with hd | ⟨s, hs2⟩
    · simpa using hd
    · rw [hs] at hs2; cases hs2
  | ok o =>
    cases o with
    | none =>
      rcases hd with hd | ⟨s, hs2⟩
      · simpa using hd
      · rw [hs] at hs2; cases hs2
    | some s =>
      have h := hst s hs
      simp [h.1, nextFromLastCheckin_eq _ T h.2 hlo hhi]

theorem apiSection_reported (env : AttemptEnv) (d : JsNum) (T : Int)
    (hlo : -MAX_TIME_VALUE ≤ T) (hhi : T + 86400000 ≤ MAX_TIME_VALUE)
    (hck : ∀ r, env.checkIn = .ok (some r) →
      r.lastCheckinTime.truthy = true ∧ r.lastCheckinTime.toNumber = .fin T)
    (hst : ∀ s, env.getWalletStatusAfterFail = .ok (some s) →
      s.lastCheckinTime.truthy = true ∧ s.lastCheckinTime.toNumber = .fin T)
    (hrep : (∃ r, env.checkIn = .ok (some r)) ∨
      ∃ s, env.getWalletStatusAfterFail = .ok (some s)) :
    apiSection env d = .fin (T + 86400000) := by
  have hstatus : (¬ ∃ r, env.checkIn = .ok (some r)) →
      apiCatch env d = .fin (T + 86400000) := by
    intro hno
    refine apiCatch_reported env d T hlo hhi hst (Or.inr ?_)
    rcases hrep with h | h
    · exact absurd h hno
    · exact h
  unfold apiSection apiTry
  cases hc : env.checkIn with
  | throws e =>
    simp only
    exact hstatus (by simp [hc])
  | ok o =>
    cases o with
    | none =>
      simp only
      exact hstatus (by simp [hc])
    | some r =>
      have h := hck r hc
      have hcatch := apiCatch_reported env (.fin (T + 86400000)) T hlo hhi hst (Or.inl rfl)
      simp only [h.1, if_true, nextFromLastCheckin_eq _ T h.2 hlo hhi]
      cases env.updatePoints with
      | throws e => simpa using hcatch
      | ok u =>
        cases env.collectWalletData with
        | throws e => simpa using hcatch
        | ok w =>
          cases w with
          | none => simpa using hcatch
          | some w => simp

theorem apiCatch_default (env : AttemptEnv) (d : JsNum)
    (hst : ∀ s, env.getWalletStatusAfterFail = .ok (some s) →
      s.lastCheckinTime.truthy = false) :
    apiCatch env d = d := by
  unfold apiCatch
  cases hs : env.getWalletStatusAfterFail with
  | throws e => rfl
  | ok o =>
    cases o with
    | none => rfl
    | some s => simp [hst s hs]

theorem apiSection_default (env : AttemptEnv) (d : JsNum)
    (hck : ∀ r, env.checkIn = .ok (some r) → r.lastCheckinTime.truthy = false)
    (hst : ∀ s, env.getWalletStatusAfterFail = .ok (some s) →
      s.lastCheckinTime.truthy = false) :
    apiSection env d = d := by
  have hcatch := apiCatch_default env d hst
  unfold apiSection apiTry
  cases hc : env.checkIn with
  | throws e => simpa using hcatch
  | ok o =>
    cases o with
    | none => simpa using hcatch
    | some r =>
      simp only [hck r hc]
      cases env.updatePoints with
      | throws e => simpa using hcatch
      | ok u =>
        cases env.collectWalletData with
        | throws e => simpa using hcatch
        | ok w =>
          cases w with
          | none => simpa using hcatch
          | some w => simp

theorem dailyCheckIn_default (env : AttemptEnv)
    (hck : ∀ r, env.checkIn = .ok (some r) → r.lastCheckinTime.truthy = false)
    (hst : ∀ s, env.getWalletStatusAfterFail = .ok (some s) →
      s.lastCheckinTime.truthy = false) :
    (Lim.dailyCheckIn env).nextRunTime = .fin (env.dateNow + 86400000) := by
  have hapi := apiSection_default env (.fin (env.dateNow + 86400000)) hck hst
  have hday : (24 : Int) * 60 * 60 * 1000 = 86400000 := by norm_num
  unfold Lim.dailyCheckIn
  simp only [hday]
  cases authenticate env with
  | error e => rfl
  | ok u =>
    cases contractTry env with
    | error err => by_cases hb : isAlreadyOrRevert err = true <;> simp [hb, hapi]
    | ok u2 => simp [hapi]

theorem apiSection_default_read (env : AttemptEnv) (d : JsNum)
    (hck : ∀ r, env.checkIn = .ok (some r) → r.lastCheckinTime.truthy = false)
    (hst : (∃ r, env.checkIn = .ok (some r) ∧ env.updatePoints = .ok () ∧
        env.collectWalletData = .ok (some ())) ∨
      ∀ s, env.getWalletStatusAfterFail = .ok (some s) →
        s.lastCheckinTime.truthy = false) :
    apiSection env d = d := by
  rcases hst with ⟨r, hr, hu, hw⟩ | hst
  · simp [apiSection, apiTry, hr, hu, hw, hck r hr]
  · exact apiSection_default env d hck hst

theorem dailyCheckIn_default_read (env : AttemptEnv)
    (hno : (∃ err, contractTry env = .error err ∧ isAlreadyOrRevert err = false) ∨
      ((∀ r, env.checkIn = .ok (some r) → r.lastCheckinTime.truthy = false) ∧
        ((∃ r, env.checkIn = .ok (some r) ∧ env.updatePoints = .ok () ∧
            env.collectWalletData = .ok (some ())) ∨
          ∀ s, env.getWalletStatusAfterFail = .ok (some s) →
            s.lastCheckinTime.truthy = false))) :
    (Lim.dailyCheckIn env).nextRunTime = .fin (env.dateNow + 86400000) := by
  have hday : (24 : Int) * 60 * 60 * 1000 = 86400000 := by norm_num
  unfold Lim.dailyCheckIn
  simp only [hday]
  cases authenticate env with
  | error e => rfl
  | ok u =>
    cases hc : contractTry env with
    | error err =>
      by_cases hb : isAlreadyOrRevert err = true
      · rcases hno with ⟨err2, h2, hb2⟩ | ⟨hck, hst⟩
        · rw [hc] at h2
          cases h2
          rw [hb] at hb2
          cases hb2
        · simp [hb, apiSection_default_read env _ hck hst]
      · simp [hb]
    | ok u2 =>
      rcases hno with ⟨err2, h2, -⟩ | ⟨hck, hst⟩
      · rw [hc] at h2
        cases h2
      · simp [apiSection_default_read env _ hck hst]

theorem dailyCheckIn_api (env : AttemptEnv) (hauth : authenticate env = .ok ())
    (hsc : contractTry env = .ok () ∨
      ∃ err, contractTry env = .error err ∧ isAlreadyOrRevert err = true) :
    Lim.dailyCheckIn env =
      { nextRunTime := apiSection env (.fin (env.dateNow + 86400000)), runAgain := true } := by
  have hday : (24 : Int) * 60 * 60 * 1000 = 86400000 := by norm_num
  unfold Lim.dailyCheckIn
  simp only [hday, hauth]
  rcases hsc with h | ⟨err, h, hb⟩
  · simp [h]
  · simp [h, hb]

theorem authenticate_ok_iff (env : AttemptEnv) :
    authenticate env = .ok () ↔
      ¬ ((∃ e, env.getNonce = .throws e) ∨ env.getNonce = .ok none ∨
         (∃ e, env.signMessage = .throws e) ∨
         (∃ e, env.login = .throws e) ∨ env.login = .ok none ∨
         env.login = .ok (some { hasUser := false }) ∨
         (∃ e, env.getWalletStatus = .throws e) ∨ env.getWalletStatus = .ok none) := by
  unfold authenticate
  rcases hn : env.getNonce with (_ | _) | e <;>
  rcases hs : env.signMessage with _ | e <;>
  rcases hl : env.login with (_ | ⟨_ | _⟩) | e <;>
  rcases hw : env.getWalletStatus with (_ | _) | e <;>
  simp

theorem includes_nil (pat : List Char) (hpat : pat ≠ []) : includes [] pat = false := by
  cases pat with
  | nil => exact absurd rfl hpat
  | cons c cs => rfl

theorem isAlreadyOrRevert_of_includes (err : JsError) (m : String)
    (hm : err.message = some m)
    (hin : includes (toLowerCase m) "already".data = true ∨
      includes (toLowerCase m) "revert".data = true) :
    isAlreadyOrRevert err = true := by
  have hne : m.data.isEmpty = false := by
    cases hd : m.data with
    | nil =>
      have h1 : toLowerCase m = [] := by simp [toLowerCase, hd]
      rw [h1, includes_nil _ (by decide), includes_nil _ (by decide)] at hin
      simp at hin
    | cons c cs => rfl
  unfold isAlreadyOrRevert
  rw [hm]
  rcases hin with h | h <;> simp [hne, h]

theorem runAutoCheckIn_no_exit (script : List (AttemptEnv × Int)) :
    ∀ (last : JsNum) (code : Nat), Index.Event.exit code ∉ Index.runAutoCheckIn script last := by
  induction script with
  | nil => intro last code; simp [Index.runAutoCheckIn]
  | cons p rest ih =>
    intro last code
    obtain ⟨env, now⟩ := p
    simp only [Index.runAutoCheckIn, List.mem_cons, not_or]
    exact ⟨by simp, by simp, ih _ code⟩

theorem runAutoCheckIn_no_uncaught (script : List (AttemptEnv × Int)) :
    ∀ last : JsNum, Index.Event.uncaughtException ∉ Index.runAutoCheckIn script last := by
  induction script with
  | nil => intro last; simp [Index.runAutoCheckIn]
  | cons p rest ih =>
    intro last
    obtain ⟨env, now⟩ := p
    simp only [Index.runAutoCheckIn, List.mem_cons, not_or]
    exact ⟨by simp, by simp, ih _⟩

theorem jsNot_guard_iff (penv : Index.ProcessEnv) :
    (Index.jsNot penv.PRIVATE_KEY || Index.jsNot penv.MONAD_RPC_URL) = true ↔
      Index.ConfigMissing penv := by
  unfold Index.ConfigMissing
  cases hk : penv.PRIVATE_KEY <;> cases hr : penv.MONAD_RPC_URL <;>
    simp [Index.jsNot]

theorem authenticate_error_of_throws (env : AttemptEnv)
    (hfail : (∃ e, env.getNonce = .throws e) ∨ (∃ e, env.signMessage = .throws e) ∨
      (∃ e, env.login = .throws e) ∨ (∃ e, env.getWalletStatus = .throws e)) :
    ∃ e, authenticate env = .error e := by
  have hnot : ¬ authenticate env = .ok () := by
    rw [authenticate_ok_iff]
    intro hno
    apply hno
    rcases hfail with h | h | h | h
    · exact Or.inl h
    · exact Or.inr (Or.inr (Or.inl h))
    · exact Or.inr (Or.inr (Or.inr (Or.inl h)))
    · exact Or.inr (Or.inr (Or.inr (Or.inr (Or.inr (Or.inr (Or.inl h))))))
  cases ha : authenticate env with
  | error e => exact ⟨e, rfl⟩
  | ok u => exact absurd ha hnot

/-! ## The loop of lim.js -/

/-- C1: when `dailyCheckIn` returns a result with `runAgain = false`,
`startBotLoop` leaves its loop: the iteration consists of the attempt and the
stop, with no sleep, and whatever is scripted after that iteration is never
run. -/
theorem startBotLoop_stops_on_fatal (env : AttemptEnv) (now : Int)
    (rest : List (AttemptEnv × Int))
    (hfatal : (Lim.dailyCheckIn env).runAgain = false) :
    Lim.startBotLoop ((env, now) :: rest) = [.attempt, .stopped] ∧
    ∀ pre : List (AttemptEnv × Int),
      Lim.startBotLoop (pre ++ (env, now) :: rest) = Lim.startBotLoop (pre ++ [(env, now)]) := by
  have hhead : ∀ tl, Lim.startBotLoop ((env, now) :: tl) = [.attempt, .stopped] := by
    intro tl
    simp [Lim.startBotLoop, hfatal]
  refine ⟨hhead rest, ?_⟩
  intro pre
  induction pre with
  | nil => simp [hhead]
  | cons p pre ih =>
    obtain ⟨e, t⟩ := p
    have ih2 : Lim.startBotLoop (pre.append ((env, now) :: rest)) =
        Lim.startBotLoop (pre.append [(env, now)]) := ih
    simp only [List.cons_append, Lim.startBotLoop, ih2]

/-- Witness of C1: a rejected login stops the loop although a second attempt is
scripted. -/
theorem startBotLoop_stops_on_fatal_witness :
    (Lim.dailyCheckIn envLoginFails).runAgain = false ∧
    Lim.startBotLoop [(envLoginFails, 1700000031000), (envOk, 1700000032000)] =
      [.attempt, .stopped] :=
  ⟨by decide,
   (startBotLoop_stops_on_fatal envLoginFails 1700000031000 [(envOk, 1700000032000)]
      (by decide)).1⟩

/-- The schedule after a reported time, when no response contradicts it: in a
non-fatal attempt that reaches the API section and in which every
`lastCheckinTime` of the check-in response and of the status re-query is truthy
and converts to the time value `T`, the returned `nextRunTime` is
`T + 86400000`, and `startBotLoop` sleeps until that time, or 60000 ms when that
time has passed. -/
theorem reported_time_schedule (env : AttemptEnv) (T : Int)
    (hnonfatal : (Lim.dailyCheckIn env).runAgain = true)
    (hsc : contractTry env = .ok () ∨
      ∃ err, contractTry env = .error err ∧ isAlreadyOrRevert err = true)
    (hlo : -MAX_TIME_VALUE ≤ T) (hhi : T + 86400000 ≤ MAX_TIME_VALUE)
    (hck : ∀ r, env.checkIn = .ok (some r) →
      r.lastCheckinTime.truthy = true ∧ r.lastCheckinTime.toNumber = .fin T)
    (hst : ∀ s, env.getWalletStatusAfterFail = .ok (some s) →
      s.lastCheckinTime.truthy = true ∧ s.lastCheckinTime.toNumber = .fin T)
    (hrep : (∃ r, env.checkIn = .ok (some r)) ∨
      ∃ s, env.getWalletStatusAfterFail = .ok (some s)) :
    (Lim.dailyCheckIn env).nextRunTime = .fin (T + 86400000) ∧
    ∀ (now : Int) (rest : List (AttemptEnv × Int)),
      Lim.startBotLoop ((env, now) :: rest) =
        .attempt ::
          ((Lim.countdown (.fin (if T + 86400000 ≤ now then 60000 else T + 86400000 - now))).map
              .sleep ++ Lim.startBotLoop rest) ∧
      (Lim.countdown (.fin (if T + 86400000 ≤ now then 60000 else T + 86400000 - now))).sum =
        (if T + 86400000 ≤ now then 60000 else T + 86400000 - now) := by
  have hauth := (runAgain_eq_true_iff env).1 hnonfatal
  have hnext : (Lim.dailyCheckIn env).nextRunTime = .fin (T + 86400000) := by
    rw [dailyCheckIn_api env hauth hsc]
    exact apiSection_reported env _ T hlo hhi hck hst hrep
  refine ⟨hnext, fun now rest => ⟨?_, ?_⟩⟩
  · rw [startBotLoop_cons_nonfatal env now rest hnonfatal, waitTime_fin _ _ now hnext]
  · have h := waitTime_sum _ _ now hnext
    rw [waitTime_fin _ _ now hnext] at h
    exact h

/-- C2, at the failing input: the check-in API call succeeds and reports the last
check-in time 1700000000000, `updatePoints` then throws and the status re-query
reports 1699913600000.  The result is non-fatal and its `nextRunTime` is
1700000000000, not 1700086400000; at the clock reading 1700000031000
`startBotLoop` sleeps twelve times 5000 ms, 60000 ms in all, so the next attempt
starts at 1700000091000, before 1700086400000. -/
theorem reported_time_overwritten :
    envPointsFail.checkIn =
      .ok (some { lastCheckinTime := .number (.fin 1700000000000) }) ∧
    Lim.dailyCheckIn envPointsFail =
      { nextRunTime := .fin 1700000000000, runAgain := true } ∧
    Lim.startBotLoop [(envPointsFail, 1700000031000)] =
      .attempt :: List.replicate 12 (.sleep 5000) ∧
    Lim.totalSleep (Lim.startBotLoop [(envPointsFail, 1700000031000)]) = 60000 ∧
    (1700000031000 : Int) + 60000 < 1700000000000 + 86400000 := by
  decide

/-- Counterexample to C3: an attempt that obtains no last check-in time (the
contract call fails for another reason than a revert) and lasts one second is
followed by a wait of 86399000 ms: `startBotLoop` sleeps 86399000 ms in all, so
the next attempt starts before `now + 86400000`. -/
theorem fallback_wait_shorter_than_a_day :
    (Lim.dailyCheckIn envContractError).runAgain = true ∧
    envContractError.dateNow + 1000 = 1700000031000 ∧
    Lim.waitTime (Lim.dailyCheckIn envContractError) 1700000031000 = .fin 86399000 ∧
    ¬ (86400000 ≤
        (Lim.countdown (Lim.waitTime (Lim.dailyCheckIn envContractError) 1700000031000)).sum) ∧
    Lim.startBotLoop [(envContractError, 1700000031000)] =
      .attempt :: ((Lim.countdown (.fin 86399000)).map .sleep ++ []) ∧
    Lim.totalSleep (Lim.startBotLoop [(envContractError, 1700000031000)]) = 86399000 ∧
    ¬ ((1700000031000 : Int) + 86400000 ≤ 1700000031000 + 86399000) := by
  have hw : Lim.waitTime (Lim.dailyCheckIn envContractError) 1700000031000 = .fin 86399000 := by
    decide
  have hloop : Lim.startBotLoop [(envContractError, 1700000031000)] =
      .attempt :: ((Lim.countdown (.fin 86399000)).map .sleep ++ []) := by
    rw [startBotLoop_cons_nonfatal _ _ _ (by decide), hw]
    rfl
  refine ⟨by decide, by decide, hw, ?_, hloop, ?_, by decide⟩
  · rw [hw, countdown_sum]; decide
  · rw [hloop, totalSleep_single_iteration, countdown_sum]; decide

/-- C3, amended: in a non-fatal attempt that obtains no last check-in time (the
contract call fails for another reason than a revert, or the check-in response
carries no truthy `lastCheckinTime` and neither does the status re-query when
it is made), the next attempt is scheduled 24 hours after the time
`dailyCheckIn` read when it began: `nextRunTime` is that start time plus
86400000, and `startBotLoop` sleeps, before it starts the next attempt,
86400000 ms minus the time elapsed since the start as long as that is
positive, and 60000 ms otherwise. -/
theorem fallback_schedule (env : AttemptEnv)
    (hnonfatal : (Lim.dailyCheckIn env).runAgain = true)
    (hno : (∃ err, contractTry env = .error err ∧ isAlreadyOrRevert err = false) ∨
      ((∀ r, env.checkIn = .ok (some r) → r.lastCheckinTime.truthy = false) ∧
        ((∃ r, env.checkIn = .ok (some r) ∧ env.updatePoints = .ok () ∧
            env.collectWalletData = .ok (some ())) ∨
          ∀ s, env.getWalletStatusAfterFail = .ok (some s) →
            s.lastCheckinTime.truthy = false))) :
    (Lim.dailyCheckIn env).nextRunTime = .fin (env.dateNow + 86400000) ∧
    ∀ (now : Int) (rest : List (AttemptEnv × Int)),
      Lim.waitTime (Lim.dailyCheckIn env) now =
        .fin (if now - env.dateNow < 86400000 then 86400000 - (now - env.dateNow)
          else 60000) ∧
      Lim.startBotLoop ((env, now) :: rest) =
        .attempt ::
          ((Lim.countdown (.fin (if now - env.dateNow < 86400000 then
              86400000 - (now - env.dateNow) else 60000))).map .sleep ++
            Lim.startBotLoop rest) ∧
      (Lim.countdown (.fin (if now - env.dateNow < 86400000 then
          86400000 - (now - env.dateNow) else 60000))).sum =
        (if now - env.dateNow < 86400000 then 86400000 - (now - env.dateNow) else 60000) := by
  have hnext := dailyCheckIn_default_read env hno
  refine ⟨hnext, fun now rest => ?_⟩
  have hw : Lim.waitTime (Lim.dailyCheckIn env) now =
      .fin (if now - env.dateNow < 86400000 then 86400000 - (now - env.dateNow)
        else 60000) := by
    rw [waitTime_fin _ _ now hnext]
    by_cases h : now - env.dateNow < 86400000
    · have h1 : ¬ env.dateNow + 86400000 ≤ now := by omega
      simp only [h, h1, if_true, if_false]
      congr 1
      omega
    · have h1 : env.dateNow + 86400000 ≤ now := by omega
      simp only [h, h1, if_true, if_false]
  refine ⟨hw, ?_, ?_⟩
  · rw [startBotLoop_cons_nonfatal env now rest hnonfatal, hw]
  · rw [countdown_sum]
    by_cases h : now - env.dateNow < 86400000
    · simp only [h, if_true]
      omega
    · simp only [h, if_false]
      omega

/-- Witness of C3, amended: the attempt of the counterexample, one second long,
is followed by sleeps of 86399000 ms in all. -/
theorem fallback_schedule_witness :
    Lim.startBotLoop [(envContractError, 1700000031000)] =
      .attempt :: ((Lim.countdown (.fin 86399000)).map .sleep ++ Lim.startBotLoop []) ∧
    (Lim.countdown (.fin 86399000)).sum = 86399000 :=
  have h := (fallback_schedule envContractError (by decide)
    (Or.inl ⟨_, rfl, by decide⟩)).2 1700000031000 []
  ⟨h.2.1, h.2.2⟩

/-- C4: after a non-fatal result whose `nextRunTime` is the number `n`,
`startBotLoop` waits exactly 60000 ms before the next attempt when `n` is less
than or equal to the current time, and exactly `n - now` when `n` is later than
now: that is the value of `waitTime` for every such result, and the loop goes
through the sleeps of the countdown of that wait, which add up to it, and then
starts the next attempt. -/
theorem waitTime_clamped (env : AttemptEnv) (n now : Int)
    (rest : List (AttemptEnv × Int))
    (hrun : (Lim.dailyCheckIn env).runAgain = true)
    (hnext : (Lim.dailyCheckIn env).nextRunTime = .fin n) :
    (∀ result : AttemptResult, result.nextRunTime = .fin n →
      Lim.waitTime result now = .fin (if n ≤ now then 60000 else n - now)) ∧
    Lim.startBotLoop ((env, now) :: rest) =
      .attempt ::
        ((Lim.countdown (.fin (if n ≤ now then 60000 else n - now))).map .sleep ++
          Lim.startBotLoop rest) ∧
    (Lim.countdown (.fin (if n ≤ now then 60000 else n - now))).sum =
      (if n ≤ now then 60000 else n - now) ∧
    Lim.totalSleep (Lim.startBotLoop [(env, now)]) = (if n ≤ now then 60000 else n - now) := by
  have hsum := waitTime_sum _ n now hnext
  rw [waitTime_fin _ n now hnext] at hsum
  refine ⟨fun result h => waitTime_fin result n now h, ?_, hsum, ?_⟩
  · rw [startBotLoop_cons_nonfatal env now rest hrun, waitTime_fin _ n now hnext]
  · rw [startBotLoop_cons_nonfatal env now [] hrun, waitTime_fin _ n now hnext]
    exact (totalSleep_single_iteration _).trans hsum

/-- Witness of C4: with a next run time 5000 ms in the past the loop sleeps
twelve times 5000 ms, 60000 ms in all; with one 5000 ms ahead it sleeps 5000 ms
once. -/
theorem waitTime_clamped_witness :
    Lim.startBotLoop [(envApiRejected, 1700086405000)] =
      .attempt :: List.replicate 12 (.sleep 5000) ∧
    Lim.totalSleep (Lim.startBotLoop [(envApiRejected, 1700086405000)]) = 60000 ∧
    Lim.startBotLoop [(envApiRejected, 1700086395000)] = [.attempt, .sleep 5000] ∧
    Lim.totalSleep (Lim.startBotLoop [(envApiRejected, 1700086395000)]) = 5000 := by
  have h1 := waitTime_clamped envApiRejected 1700086400000 1700086405000 []
    (by decide) (by decide)
  have h2 := waitTime_clamped envApiRejected 1700086400000 1700086395000 []
    (by decide) (by decide)
  refine ⟨?_, ?_, ?_, ?_⟩
  · rw [h1.2.1]; decide
  · rw [h1.2.2.2]; decide
  · rw [h2.2.1]; decide
  · rw [h2.2.2.2]; decide

/-- C5, at the failing input: when the check-in API reports the last check-in
time as a date string, `dailyCheckIn` returns a non-fatal result whose
`nextRunTime` is `NaN`; the wait is `NaN`, the countdown loop does not sleep,
and the next attempt starts at once. -/
theorem nan_next_run_time_no_sleep :
    Lim.dailyCheckIn envDateString = { nextRunTime := .nan, runAgain := true } ∧
    Lim.waitTime (Lim.dailyCheckIn envDateString) 1700000031000 = .nan ∧
    Lim.countdown (Lim.waitTime (Lim.dailyCheckIn envDateString) 1700000031000) = [] ∧
    Lim.startBotLoop [(envDateString, 1700000031000), (envDateString, 1700000032000)] =
      [.attempt, .attempt] ∧
    Lim.totalSleep
      (Lim.startBotLoop [(envDateString, 1700000031000), (envDateString, 1700000032000)]) = 0 := by
  decide

/-! ## One attempt of lim.js -/

/-- C6: the result of `dailyCheckIn` has `runAgain = false` if and only if a step
of the authentication phase fails (`getNonce` throws or yields no nonce object
to build the message from, `signMessage` throws, `login` throws or yields no
user, the first `getWalletStatus` throws or yields no status); `runAgain`
depends on these four calls only, so that no outcome of the contract
transaction, of the check-in API call, of the points and quest update or of the
status re-query makes the result fatal. -/
theorem runAgain_false_iff_authentication_fails (env : AttemptEnv) :
    ((Lim.dailyCheckIn env).runAgain = false ↔
      ((∃ e, env.getNonce = .throws e) ∨ env.getNonce = .ok none ∨
       (∃ e, env.signMessage = .throws e) ∨
       (∃ e, env.login = .throws e) ∨ env.login = .ok none ∨
       env.login = .ok (some { hasUser := false }) ∨
       (∃ e, env.getWalletStatus = .throws e) ∨ env.getWalletStatus = .ok none)) ∧
    ∀ env2 : AttemptEnv,
      env2.getNonce = env.getNonce → env2.signMessage = env.signMessage →
      env2.login = env.login → env2.getWalletStatus = env.getWalletStatus →
      (Lim.dailyCheckIn env2).runAgain = (Lim.dailyCheckIn env).runAgain := by
  constructor
  · rw [← not_iff_not, Bool.not_eq_false, runAgain_eq_true_iff, authenticate_ok_iff]
  · intro env2 h1 h2 h3 h4
    have hauth : authenticate env2 = authenticate env := by
      simp only [authenticate, h1, h2, h3, h4]
    rw [Bool.eq_iff_iff, runAgain_eq_true_iff, runAgain_eq_true_iff, hauth]

/-- Witness of C6: a rejected login is fatal, and an attempt with the same four
authentication calls as the all-successful one is not fatal although its
check-in API call is rejected. -/
theorem runAgain_false_iff_authentication_fails_witness :
    (Lim.dailyCheckIn envLoginFails).runAgain = false ∧
    (Lim.dailyCheckIn envApiRejected).runAgain = (Lim.dailyCheckIn envOk).runAgain :=
  ⟨(runAgain_false_iff_authentication_fails envLoginFails).1.2
      (Or.inr (Or.inr (Or.inr (Or.inl ⟨_, rfl⟩)))),
   (runAgain_false_iff_authentication_fails envOk).2 envApiRejected rfl rfl rfl rfl⟩

/-- C7: when the attempt reaches the check-in API call and that call throws, the
result has `runAgain = true`; if the status re-query returns a truthy
`lastCheckinTime` converting to a time value `L` whose next day is within the
range of dates, `nextRunTime` is `L + 86400000`; if the re-query throws, returns
nothing or carries no truthy `lastCheckinTime`, `nextRunTime` is the default,
the start of the attempt plus 86400000. -/
theorem api_failure_schedule (env : AttemptEnv)
    (hauth : authenticate env = .ok ())
    (hsc : contractTry env = .ok () ∨
      ∃ err, contractTry env = .error err ∧ isAlreadyOrRevert err = true)
    (hfail : ∃ e, env.checkIn = .throws e) :
    (Lim.dailyCheckIn env).runAgain = true ∧
    (∀ (s : WalletStatus) (L : Int),
      env.getWalletStatusAfterFail = .ok (some s) →
      s.lastCheckinTime.truthy = true → s.lastCheckinTime.toNumber = .fin L →
      -MAX_TIME_VALUE ≤ L → L + 86400000 ≤ MAX_TIME_VALUE →
      (Lim.dailyCheckIn env).nextRunTime = .fin (L + 86400000)) ∧
    (((∃ e, env.getWalletStatusAfterFail = .throws e) ∨
        env.getWalletStatusAfterFail = .ok none ∨
        ∃ s, env.getWalletStatusAfterFail = .ok (some s) ∧
          s.lastCheckinTime.truthy = false) →
      (Lim.dailyCheckIn env).nextRunTime = .fin (env.dateNow + 86400000)) := by
  obtain ⟨e, he⟩ := hfail
  have hres := dailyCheckIn_api env hauth hsc
  have hapi : ∀ d, apiSection env d = apiCatch env d := by
    intro d
    simp [apiSection, apiTry, he]
  refine ⟨by rw [hres], ?_, ?_⟩
  · intro s L hs ht hn hlo hhi
    rw [hres]
    simp only [hapi]
    refine apiCatch_reported env _ L hlo hhi ?_ (Or.inr ⟨s, hs⟩)
    intro s2 hs2
    rw [hs] at hs2
    cases hs2
    exact ⟨ht, hn⟩
  · intro h
    rw [hres]
    simp only [hapi]
    refine apiCatch_default env _ ?_
    intro s2 hs2
    rcases h with ⟨e2, h⟩ | h | ⟨s, h, hf⟩
    · rw [h] at hs2; cases hs2
    · rw [h] at hs2; cases hs2
    · rw [h] at hs2; cases hs2; exact hf

/-- Witness of C7: the check-in API call is rejected and the status re-query
reports 1700000000000, so the next run time is 1700086400000. -/
theorem api_failure_schedule_witness :
    (Lim.dailyCheckIn envApiRejected).runAgain = true ∧
    (Lim.dailyCheckIn envApiRejected).nextRunTime = .fin (1700000000000 + 86400000) :=
  have h := api_failure_schedule envApiRejected rfl (Or.inl rfl) ⟨_, rfl⟩
  ⟨h.1, h.2.1 _ 1700000000000 rfl (by decide) rfl (by decide) (by decide)⟩

/-- C8, at the failing input: the check-in API call succeeds and reports the last
check-in time 1700000000000; when `updatePoints` then throws and the status
re-query reports 1699913600000, `nextRunTime` is 1700000000000, whereas it is
1700086400000 in the run where `updatePoints` succeeds. -/
theorem updatePoints_failure_changes_nextRunTime :
    Lim.dailyCheckIn envPointsFail = { nextRunTime := .fin 1700000000000, runAgain := true } ∧
    Lim.dailyCheckIn envPointsOk = { nextRunTime := .fin 1700086400000, runAgain := true } := by
  decide

/-- Counterexample to C9: the contract call fails with the message
`execution reverted: Already checked in`, the check-in API call is rejected and
the status re-query reports 1700000000000; the result is non-fatal but its
`nextRunTime` is 1700086400000, not the fallback 1700086430000. -/
theorem benign_revert_not_fallback :
    contractTry envAlready =
      .error { message := some "execution reverted: Already checked in" } ∧
    isAlreadyOrRevert { message := some "execution reverted: Already checked in" } = true ∧
    (Lim.dailyCheckIn envAlready).runAgain = true ∧
    (Lim.dailyCheckIn envAlready).nextRunTime = .fin 1700086400000 ∧
    (Lim.dailyCheckIn envAlready).nextRunTime ≠ .fin (envAlready.dateNow + 86400000) := by
  refine ⟨rfl, by decide, by decide, by decide, by decide⟩

/-- C9, amended: when the contract call fails with an error message containing
`already` or `revert` in any letter case, the result is non-fatal and is the
result of the same attempt with a successful contract call; its `nextRunTime`
is the fallback, the start of the attempt plus 86400000, when neither the
check-in API response nor the status re-query carries a truthy
`lastCheckinTime`. -/
theorem benign_contract_failure (env : AttemptEnv) (err : JsError) (m : String)
    (hauth : authenticate env = .ok ())
    (hc : contractTry env = .error err) (hm : err.message = some m)
    (hin : includes (toLowerCase m) "already".data = true ∨
      includes (toLowerCase m) "revert".data = true) :
    (Lim.dailyCheckIn env).runAgain = true ∧
    Lim.dailyCheckIn env =
      Lim.dailyCheckIn { env with contractCheckIn := .ok (), txWait := .ok () } ∧
    ((∀ r, env.checkIn = .ok (some r) → r.lastCheckinTime.truthy = false) →
      (∀ s, env.getWalletStatusAfterFail = .ok (some s) →
        s.lastCheckinTime.truthy = false) →
      (Lim.dailyCheckIn env).nextRunTime = .fin (env.dateNow + 86400000)) := by
  have hb := isAlreadyOrRevert_of_includes err m hm hin
  have hres := dailyCheckIn_api env hauth (Or.inr ⟨err, hc, hb⟩)
  have hres2 := dailyCheckIn_api { env with contractCheckIn := .ok (), txWait := .ok () }
    hauth (Or.inl rfl)
  refine ⟨by rw [hres], ?_, fun hck hst => dailyCheckIn_default env hck hst⟩
  rw [hres, hres2]
  rfl

/-- Witness of C9, amended: the attempt of the counterexample has the result of
the same attempt with a successful contract call. -/
theorem benign_contract_failure_witness :
    (Lim.dailyCheckIn envAlready).runAgain = true ∧
    Lim.dailyCheckIn envAlready = Lim.dailyCheckIn envAlreadyContractOk :=
  have h := benign_contract_failure envAlready
    { message := some "execution reverted: Already checked in" }
    "execution reverted: Already checked in" rfl rfl rfl (Or.inl (by decide))
  ⟨h.1, h.2.1⟩

/-! ## The start of index.js -/

/-- Counterexample to C10: with `PRIVATE_KEY=hello` both variables are present, the
start-up check passes, the wallet constructor throws on the malformed key and
the process ends at start-up, before any attempt. -/
theorem main_dies_on_malformed_key :
    ¬ Index.ConfigMissing penvBadKey ∧
    Index.main penvBadKey newWalletThrows [(envOk, 1700000031000)] =
      [.uncaughtException] := by
  refine ⟨?_, by decide⟩
  simp [Index.ConfigMissing, penvBadKey]

/-- C10, amended: index.js calls `process.exit(1)`, before it constructs the
wallet or runs any attempt, exactly when `PRIVATE_KEY` or `MONAD_RPC_URL` is
absent or empty.  When both are present it goes on to the wallet constructor:
if the constructor returns, the process constructs the wallet, calls
`runAutoCheckIn` and never exits; if the constructor throws, the process ends
there on the uncaught exception, without any attempt. -/
theorem main_exits_iff_config_missing (penv : Index.ProcessEnv) (newWallet : Call Unit)
    (script : List (AttemptEnv × Int)) :
    (Index.main penv newWallet script = [.exit 1] ↔ Index.ConfigMissing penv) ∧
    (¬ Index.ConfigMissing penv →
      ((∃ u, newWallet = .ok u) →
        Index.main penv newWallet script =
          .newWallet :: Index.runAutoCheckIn script (.fin 0) ∧
        (∀ code, Index.Event.exit code ∉ Index.main penv newWallet script) ∧
        Index.Event.uncaughtException ∉ Index.main penv newWallet script) ∧
      ((∃ e, newWallet = .throws e) →
        Index.main penv newWallet script = [.uncaughtException])) := by
  have hguard := jsNot_guard_iff penv
  by_cases hmiss : Index.ConfigMissing penv
  · have hg := hguard.2 hmiss
    refine ⟨⟨fun _ => hmiss, fun _ => by simp [Index.main, hg]⟩, fun h => absurd hmiss h⟩
  · have hg : ¬ (Index.jsNot penv.PRIVATE_KEY || Index.jsNot penv.MONAD_RPC_URL) = true :=
      fun h => hmiss (hguard.1 h)
    refine ⟨⟨fun h => ?_, fun h => absurd h hmiss⟩, fun _ => ⟨?_, ?_⟩⟩
    · cases newWallet <;> simp [Index.main, hg] at h
    · rintro ⟨u, rfl⟩
      have hmain : Index.main penv (.ok u) script =
          .newWallet :: Index.runAutoCheckIn script (.fin 0) := by
        simp [Index.main, hg]
      refine ⟨hmain, fun code => ?_, ?_⟩
      · rw [hmain]
        simp only [List.mem_cons, not_or]
        exact ⟨by simp, runAutoCheckIn_no_exit script _ code⟩
      · rw [hmain]
        simp only [List.mem_cons, not_or]
        exact ⟨by simp, runAutoCheckIn_no_uncaught script _⟩
    · rintro ⟨e, rfl⟩
      simp [Index.main, hg]

/-- Witness of C10, amended: without `MONAD_RPC_URL` the process only exits with
code 1; with both variables and a key the constructor accepts it constructs the
wallet and runs the first attempt; with the key `hello` it ends on the uncaught
exception. -/
theorem main_exits_iff_config_missing_witness :
    Index.main penvNoRpc (.ok ()) [(envOk, 1700000031000)] = [.exit 1] ∧
    Index.main penvOk (.ok ()) [(envOk, 1700000031000)] =
      .newWallet :: Index.runAutoCheckIn [(envOk, 1700000031000)] (.fin 0) ∧
    Index.main penvBadKey newWalletThrows [(envOk, 1700000031000)] =
      [.uncaughtException] :=
  ⟨(main_exits_iff_config_missing penvNoRpc (.ok ()) [(envOk, 1700000031000)]).1.2
      (Or.inr (Or.inr (Or.inl rfl))),
   (((main_exits_iff_config_missing penvOk (.ok ()) [(envOk, 1700000031000)]).2
      (by simp [Index.ConfigMissing, penvOk])).1 ⟨(), rfl⟩).1,
   ((main_exits_iff_config_missing penvBadKey newWalletThrows [(envOk, 1700000031000)]).2
      (by simp [Index.ConfigMissing, penvBadKey])).2 ⟨_, rfl⟩⟩

/-! ## The scheduler of index.js -/

/-- Counterexample to C11: the login of the first attempt is rejected, and
`runAutoCheckIn` still calls `setTimeout` with a delay of 86400000 ms, after
which the second attempt runs. -/
theorem runAutoCheckIn_reschedules_after_login_failure :
    authenticate envLoginFails =
      .error { message := some "Request failed with status code 401" } ∧
    Index.runAutoCheckIn [(envLoginFails, 1700000031000), (envOk, 1700086431000)] (.fin 0) =
      [.attempt, .setTimeout (.fin 86400000), .attempt, .setTimeout (.fin 86400000)] := by
  refine ⟨rfl, by decide⟩

/-- C11, amended: when authentication fails inside `dailyCheckIn` of index.js
(`getNonce`, the signing, `login` or the wallet-status fetch throws),
`dailyCheckIn` returns with `lastCheckinTimeMs` unchanged and `runAutoCheckIn`
schedules the next attempt as after any attempt: after the time left until
`lastCheckinTimeMs + 86400000` when that is positive, after 86400000 ms
otherwise; the loop goes on. -/
theorem runAutoCheckIn_after_authentication_failure (env : AttemptEnv) (now : Int)
    (rest : List (AttemptEnv × Int)) (lastCheckinTimeMs : JsNum)
    (hfail : (∃ e, env.getNonce = .throws e) ∨ (∃ e, env.signMessage = .throws e) ∨
      (∃ e, env.login = .throws e) ∨ (∃ e, env.getWalletStatus = .throws e)) :
    Index.dailyCheckIn env lastCheckinTimeMs = lastCheckinTimeMs ∧
    ∃ delay : JsNum,
      Index.runAutoCheckIn ((env, now) :: rest) lastCheckinTimeMs =
        .attempt :: .setTimeout delay :: Index.runAutoCheckIn rest lastCheckinTimeMs ∧
      (∀ l : Int, lastCheckinTimeMs = .fin l →
        delay = .fin (if now < l + 86400000 then l + 86400000 - now else 86400000)) ∧
      (lastCheckinTimeMs = .nan → delay = .fin 86400000) := by
  obtain ⟨e, he⟩ := authenticate_error_of_throws env hfail
  have hlast : Index.dailyCheckIn env lastCheckinTimeMs = lastCheckinTimeMs := by
    simp [Index.dailyCheckIn, he]
  have hday : Index.ONE_DAY_MS = 86400000 := by norm_num [Index.ONE_DAY_MS]
  refine ⟨hlast, _, by simp only [Index.runAutoCheckIn, hlast]; rfl, ?_, ?_⟩
  · intro l hl
    subst hl
    by_cases h : now < l + 86400000
    · have h0 : 0 < l + 86400000 - now := by omega
      simp [JsNum.add, JsNum.sub, JsNum.gt, hday, h, h0]
    · have h0 : ¬ 0 < l + 86400000 - now := by omega
      simp [JsNum.add, JsNum.sub, JsNum.gt, hday, h, h0]
  · intro hl
    subst hl
    simp [JsNum.add, JsNum.sub, JsNum.gt, hday]

/-- Witness of C11, amended: after the rejected login of a first attempt the
next attempt is scheduled 86400000 ms later. -/
theorem runAutoCheckIn_after_authentication_failure_witness :
    Index.dailyCheckIn envLoginFails (.fin 0) = .fin 0 ∧
    Index.runAutoCheckIn [(envLoginFails, 1700000031000), (envOk, 1700086431000)] (.fin 0) =
      .attempt :: .setTimeout (.fin 86400000) ::
        Index.runAutoCheckIn [(envOk, 1700086431000)] (.fin 0) := by
  have h := runAutoCheckIn_after_authentication_failure envLoginFails 1700000031000
    [(envOk, 1700086431000)] (.fin 0) (Or.inr (Or.inr (Or.inl ⟨_, rfl⟩)))
  obtain ⟨hlast, delay, htrace, hdelay, -⟩ := h
  have hd : delay = .fin 86400000 := by
    rw [hdelay 0 rfl]
    decide
  rw [hd] at htrace
  exact ⟨hlast, htrace⟩

/-! ## The countdown of lim.js -/

/-- C12: for every wait time `w > 0` the countdown loop of `startBotLoop`
terminates (given at least `ceil(w / 5000)` iterations it leaves by its own
condition), performs `ceil(w / 5000)` sleeps, each positive and of at most
5000 ms, and the sleeps add up to exactly `w`; an iteration of `startBotLoop`
whose wait is `w` goes through exactly these sleeps and then starts the next
attempt, so that it sleeps `w` in all. -/
theorem countdown_terminates_exact (w : Int) (hw : 0 < w) :
    (∀ fuel : Nat, w ≤ 5000 * fuel →
      Lim.countdownRun fuel (.fin w) = some (Lim.countdown (.fin w))) ∧
    ((Lim.countdown (.fin w)).length : Int) = ⌈(w : ℚ) / 5000⌉ ∧
    (∀ t ∈ Lim.countdown (.fin w), 0 < t ∧ t ≤ 5000) ∧
    (Lim.countdown (.fin w)).sum = w ∧
    (∀ (env : AttemptEnv) (now : Int) (rest : List (AttemptEnv × Int)),
      (Lim.dailyCheckIn env).runAgain = true →
      Lim.waitTime (Lim.dailyCheckIn env) now = .fin w →
      Lim.startBotLoop ((env, now) :: rest) =
        .attempt :: ((Lim.countdown (.fin w)).map .sleep ++ Lim.startBotLoop rest) ∧
      Lim.totalSleep (Lim.startBotLoop [(env, now)]) = w) := by
  have hsum : (Lim.countdown (.fin w)).sum = w := by
    rw [countdown_sum]
    omega
  have hfuel : w ≤ 5000 * (w.toNat : Int) := by omega
  refine ⟨?_, ?_, ?_, hsum, ?_⟩
  · intro fuel hf
    rw [countdownRun_eq_aux fuel w hf, countdown_eq_aux fuel w hf]
  · rw [ceil_div_5000, countdown_eq_aux w.toNat w hfuel]
    exact countdownAux_length w.toNat w (le_of_lt hw) hfuel
  · intro t ht
    rw [countdown_eq_aux w.toNat w hfuel] at ht
    exact countdownAux_bounds w.toNat w t ht
  · intro env now rest hrun hwait
    constructor
    · rw [startBotLoop_cons_nonfatal env now rest hrun, hwait]
    · rw [startBotLoop_cons_nonfatal env now [] hrun, hwait]
      exact (totalSleep_single_iteration _).trans hsum

/-- Witness of C12: a wait of 12000 ms is slept as 5000, 5000 and 2000 ms, three
sleeps that add up to 12000, and the iteration of `startBotLoop` with that wait
consists of the attempt and these three sleeps. -/
theorem countdown_terminates_exact_witness :
    Lim.countdownRun 3 (.fin 12000) = some [5000, 5000, 2000] ∧
    Lim.countdown (.fin 12000) = [5000, 5000, 2000] ∧
    (Lim.countdown (.fin 12000)).sum = 12000 ∧
    Lim.startBotLoop [(envApiRejected, 1700086388000)] =
      [.attempt, .sleep 5000, .sleep 5000, .sleep 2000] ∧
    Lim.totalSleep (Lim.startBotLoop [(envApiRejected, 1700086388000)]) = 12000 := by
  have h := countdown_terminates_exact 12000 (by decide)
  have hc : Lim.countdown (.fin 12000) = [5000, 5000, 2000] := by decide
  have hloop := h.2.2.2.2 envApiRejected 1700086388000 [] (by decide) (by decide)
  refine ⟨?_, hc, h.2.2.2.1, ?_, hloop.2⟩
  · rw [← hc]
    exact h.1 3 (by decide)
  · rw [hloop.1, hc]
    rfl

end CheckinBot
